import Mathlib

/-!
Verification development for the ivadomed dataset-construction and
3D-reconstruction pipeline (files `ivadomed/loader/loader.py` and
`ivadomed/testing.py`), shallowly embedded in Lean 4.

Conventions of the embedding:
* Python dicts used as string-keyed records become Lean structures or
  association lists (`List (String × _)`); in-place mutation of a dict
  argument is modelled by returning the post-call state of the dict.
* Torch tensors become (nested) lists of rationals; only the operations
  the source performs on them (uniqueness count, zeroing, stacking,
  thresholding) are modelled.
* `random.randint` results are passed in explicitly: a single drawn
  number becomes an argument, the stream of draws of a loop becomes a
  `List Nat` argument (the loop consumes a finite prefix of the stream).
-/

namespace Ivadomed

/-! ## Dataset Builder dispatch, from `load_dataset` in `ivadomed/loader/loader.py`

The dispatch reads `model_params["name"]` and the optional key
`model_params["is_2d"]`; the other arguments of `load_dataset` do not
influence which dataset class is constructed, so the embedding keeps
only the transform keys (for the ROICrop test), the model name, the
optional `is_2d` flag, and the `roi_params` dict.
-/

/-- The three dataset classes `load_dataset` can construct:
`Bids3DDataset`, `imed_adaptative.HDF5Dataset`, and `BidsDataset`. -/
inductive DatasetChoice
  | bids3d
  | hdf5
  | bids2d
deriving DecidableEq, Repr

/-- Model of a Python dict with string keys and values that may be `None`
(`none` models the Python value `None`, `some v` a non-null value). -/
abbrev PyDict := List (String × Option Nat)

/-- Python `d[k] = v`: overwrite the binding of `k` in place if the key
is present, otherwise append a new binding at the end (CPython dicts
keep insertion order and append new keys at the end; a dict never holds
a key twice). -/
def dictSet : PyDict → String → Option Nat → PyDict
  | [], k, v => [(k, v)]
  | a :: t, k, v => if a.1 = k then (k, v) :: t else a :: dictSet t k v

/-- Python `d[k]` lookup: `some w` when the key is bound (to `w`, itself an
`Option` since the stored value may be `None`), `none` when absent. -/
def dictGet (d : PyDict) (k : String) : Option (Option Nat) :=
  (d.find? (fun p => p.1 == k)).map Prod.snd

/-- The condition `"is_2d" in model_params and not model_params["is_2d"]` of
`load_dataset`: the key is present (`some`) and holds `False`. -/
def is2dDeclaredFalse (is2d : Option Bool) : Bool :=
  is2d == some false

/-- The guard of the first branch of `load_dataset`:
`model_params["name"] == "Modified3DUNet" or ("is_2d" in model_params and not model_params["is_2d"])`. -/
def volumetricCond (modelName : String) (is2d : Option Bool) : Bool :=
  (modelName == "Modified3DUNet") || is2dDeclaredFalse is2d

/-- Result of a call to `load_dataset`:
* `roiParamsAfter` is the state of the roi_params dict object of the caller
  after the call (the source mutates it in place);
* `datasetRoiParams` is the `roi_params` argument handed to the dataset
  constructor that was invoked;
* `choice` is the dataset class that was constructed. -/
structure LoadResult where
  roiParamsAfter : PyDict
  datasetRoiParams : PyDict
  choice : DatasetChoice
deriving DecidableEq, Repr

/-- The ROI side effect of `load_dataset` (lines 53-55): force
`roi_params["slice_filter_roi"] = None` when `"ROICrop"` is not among the
keys of `transforms_params`. -/
def loadRoi (transformKeys : List String) (roiParams : PyDict) : PyDict :=
  if "ROICrop" ∈ transformKeys then roiParams
  else dictSet roiParams "slice_filter_roi" none

/-- The dispatch chain of `load_dataset` (lines 57-107): `Bids3DDataset`
when the volumetric guard holds, else `HDF5Dataset` for `HeMISUnet`,
else the default `BidsDataset` branch. -/
def loadChoice (modelName : String) (is2d : Option Bool) : DatasetChoice :=
  if volumetricCond modelName is2d then DatasetChoice.bids3d
  else if modelName == "HeMISUnet" then DatasetChoice.hdf5
  else DatasetChoice.bids2d

/-- Embedding of `load_dataset` (`ivadomed/loader/loader.py`, lines
14-117). `transformKeys` are the keys of `transforms_params`. The
function first applies the ROI side effect, then dispatches on the model
parameters; the dict every dataset constructor receives is the updated
`roi_params` object (the same object the caller passed in). No branch of
the function raises. -/
def load_dataset (transformKeys : List String) (modelName : String)
    (is2d : Option Bool) (roiParams : PyDict) : LoadResult :=
  { roiParamsAfter := loadRoi transformKeys roiParams,
    datasetRoiParams := loadRoi transformKeys roiParams,
    choice := loadChoice modelName is2d }

/-! ## Input Dropout, from `dropout_input` in `ivadomed/loader/loader.py`

A sample input is a list of channels, each channel the flattened list of
its (float) pixel values, modelled as rationals. The two `random.randint`
results of the source are passed explicitly: `nDropped` is the single
draw `random.randint(0, n_channels - 1)`, and `draws` is the stream of
draws consumed by the `while` loop (the loop reads one draw per
iteration and keeps those outside `idx_empty` until it has collected the
required number, which on the list model is filter-then-take). -/

/-- Is a channel non-constant, i.e. `len(torch.unique(input_data)) > 1`. -/
def chNonConstant (ch : List ℚ) : Bool :=
  1 < ch.dedup.length

/-- The `idx_empty` array: ascending indices of the channels whose value
set has at most one element (`np.where(np.invert(n_unique_values))[0]`). -/
def idxEmpty (input : List (List ℚ)) : List ℕ :=
  ((input.enum).filter (fun p => ! chNonConstant p.2)).map Prod.fst

/-- The `while len(idx_dropped) != n_dropped` loop: repeatedly draw an
index, keep it when it is not in `idx_empty` (duplicates are NOT
rejected), stop once `need` indices have been kept. On the explicit
stream of draws this is filter-then-take; the loop terminates exactly
when the filtered stream has at least `need` elements. -/
def collectDraws (idxEmp : List ℕ) (need : ℕ) (draws : List ℕ) : List ℕ :=
  (draws.filter (fun i => ! idxEmp.contains i)).take need

/-- The fancy-indexed assignment
`seg_pair["input"][idx_dropped] = torch.zeros_like(...)`: every channel
whose index occurs in `idxDropped` becomes all-zero, the rest are kept. -/
def dropChannels (input : List (List ℚ)) (idxDropped : List ℕ) : List (List ℚ) :=
  (input.enum).map (fun p => if p.1 ∈ idxDropped then p.2.map (fun _ => 0) else p.2)

/-- Embedding of `dropout_input` (`ivadomed/loader/loader.py`, lines
120-158), restricted to the `input` tensor of the batch (the only field
the function changes). For a multichannel input it computes `idx_empty`;
if the drawn `nDropped` exceeds the number of already-constant channels
the excess is collected from the draw stream among non-constant
channels, otherwise `idx_dropped = idx_empty` itself; the selected
channels are zeroed. A single-channel input is returned unchanged (the
source only logs a warning). -/
def dropout_input (input : List (List ℚ)) (nDropped : ℕ) (draws : List ℕ) :
    List (List ℚ) :=
  if 1 < input.length then
    if (idxEmpty input).length < nDropped then
      dropChannels input
        (collectDraws (idxEmpty input) (nDropped - (idxEmpty input).length) draws)
    else
      dropChannels input (idxEmpty input)
  else input

/-- Does a channel consist only of zeros (the post-state notion of a
"zeroed" channel). -/
def chAllZero (ch : List ℚ) : Bool :=
  ch.all (fun x => x == 0)

/-- Number of all-zero channels of a sample. -/
def countZeroChannels (input : List (List ℚ)) : ℕ :=
  (input.filter chAllZero).length

/-- The concrete 4-channel sample of the spec scenario for C3: channel 2
is all-zero, channels 0, 1 and 3 carry signal. -/
def c3Input : List (List ℚ) :=
  [[0, 1], [0, 2], [0, 0], [0, 3]]

/-! ## Volume Reconstructor, 2D path of `test` in `ivadomed/testing.py`

The per-sample body of the nested loops (lines 121-167, branch
`not context["unet_3D"]`) is a state machine over the mutable variables
`pred_tmp_lst`, `z_tmp_lst`, `fname_tmp` and the set of files written to
`pred_masks`. The stream of samples is flattened across batches: the
guard `i == len(test_loader) - 1 and smp_idx == len(batch["gt"]) - 1`
holds exactly at the globally last sample (every batch produced by the
loader is non-empty), so the flattening carries one `isLast` flag per
position. A sample contributes the triple (prediction payload,
`slice_index`, reference ground-truth filename); the prediction payload
is opaque for these claims and modelled as a natural number tag. -/

/-- One incoming sample of the 2D reconstruction stream. -/
structure Triple where
  pred : ℕ
  z : ℤ
  fname : String
deriving DecidableEq, Repr

/-- A volume written by the flush branch: the `fname_tmp` key it was
saved under, the accumulated `pred_tmp_lst`, and the accumulated
`z_tmp_lst`. -/
structure SavedVolume where
  fname : String
  preds : List ℕ
  zs : List ℤ
deriving DecidableEq, Repr

/-- The loop state: the two accumulation buffers, the current filename
key, and the volumes saved so far (in save order). -/
structure ReconState where
  buf : List ℕ
  zbuf : List ℤ
  fnameTmp : String
  saved : List SavedVolume
deriving DecidableEq, Repr

/-- The initial state (`pred_tmp_lst, z_tmp_lst, fname_tmp = [], [], ""`). -/
def reconInit : ReconState :=
  ⟨[], [], "", []⟩

/-- The flush branch (`ivadomed/testing.py`, lines 133-160): if
`pred_tmp_lst` is non-empty and the filename changed or this is the last
sample of the stream, save the buffered volume under `fname_tmp` and
reset both buffers; otherwise leave the state alone. -/
def reconFlush (isLast : Bool) (s : ReconState) (t : Triple) : ReconState :=
  if s.buf ≠ [] ∧ (t.fname ≠ s.fnameTmp ∨ isLast = true) then
    { buf := [], zbuf := [], fnameTmp := s.fnameTmp,
      saved := s.saved ++ [⟨s.fnameTmp, s.buf, s.zbuf⟩] }
  else s

/-- The append step (`ivadomed/testing.py`, lines 162-167): push the
current sample onto both buffers and set `fname_tmp` to its filename. -/
def reconAppend (s : ReconState) (t : Triple) : ReconState :=
  { buf := s.buf ++ [t.pred], zbuf := s.zbuf ++ [t.z],
    fnameTmp := t.fname, saved := s.saved }

/-- One iteration of the 2D reconstruction loop on sample `t`
(`ivadomed/testing.py`, lines 132-167): the flush check precedes the
append of the current sample. -/
def reconStep (isLast : Bool) (s : ReconState) (t : Triple) : ReconState :=
  reconAppend (reconFlush isLast s t) t

/-- The whole 2D reconstruction loop over a stream of samples: fold
`reconStep` over the enumerated stream, the `isLast` flag set exactly at
the final position. -/
def reconRun (stream : List Triple) : ReconState :=
  (stream.enum).foldl
    (fun s p => reconStep (p.1 == stream.length - 1) s p.2) reconInit

/-- The three-sample stream of the spec scenario for C1: keys A, A, B
with slice indices 0, 1, 0; the payload tags 10, 11, 20 identify the
individual predicted slices. -/
def c1Stream : List Triple :=
  [⟨10, 0, "A"⟩, ⟨11, 1, "A"⟩, ⟨20, 0, "B"⟩]

/-! ## Monte-Carlo passes and filenames, from `test` in `ivadomed/testing.py`

Lines 57-66 select the number of passes from the uncertainty settings;
lines 139-141 and 173-175 suffix each saved filename with the pass index
when more than one pass runs; lines 204-207 trigger the uncertainty-map
computation after the loop. The source reads the uncertainty settings
through two names, `testing_params["uncertainty"]` and
`context["uncertainty"]`; the embedding treats both as the same
configuration record. Filenames are modelled as their character lists;
`str(i).zfill(2)` becomes the decimal digit characters of `i`
left-padded with the character `0` to length two. -/

/-- The `uncertainty` sub-dict of the testing parameters. -/
structure UncertaintyParams where
  epistemic : Bool
  aleatoric : Bool
  nIt : ℕ
deriving DecidableEq, Repr

/-- The guard `(epistemic or aleatoric) and n_it > 0`, used both to pick
the pass count (lines 58-59) and to trigger the final uncertainty-map
computation (lines 205-206). -/
def mcEnabled (u : UncertaintyParams) : Bool :=
  (u.epistemic || u.aleatoric) && decide (0 < u.nIt)

/-- The pass count `n_monteCarlo` (lines 57-66). -/
def nMonteCarlo (u : UncertaintyParams) : ℕ :=
  if mcEnabled u then u.nIt else 1

/-- Whether `imed_utils.run_uncertainty` is invoked after the loop
(lines 204-207). -/
def runUncertaintyAfter (u : UncertaintyParams) : Bool :=
  mcEnabled u

/-- The decimal digit `d` (`d < 10`) as a character. -/
def digitChar (d : ℕ) : Char :=
  Char.ofNat (48 + d)

/-- The decimal value of a digit character. -/
def charDigit (c : Char) : ℕ :=
  c.toNat - 48

/-- Python `str(i)` for a natural `i`: its decimal digits, most
significant first (and `"0"` for zero). -/
def pyNatStr (i : ℕ) : List Char :=
  if i = 0 then ['0'] else ((Nat.digits 10 i).map digitChar).reverse

/-- Python `s.zfill(2)` on a digit string: left-pad with the character
`0` up to length two. -/
def zfill2 (l : List Char) : List Char :=
  List.replicate (2 - l.length) '0' ++ l

/-- The pass suffix `str(i_monteCarlo).zfill(2)`. -/
def mcSuffix (i : ℕ) : List Char :=
  zfill2 (pyNatStr i)

/-- The filename a volume of pass `i` is saved under, given the
extension-less prediction name `base` (the value of
`fname_pred.split(".nii.gz")[0]`): lines 136-141 append
`"_" + str(i_monteCarlo).zfill(2)` before the `.nii.gz` extension
exactly when more than one pass runs. -/
def fnameMC (base : List Char) (nmc i : ℕ) : List Char :=
  if 1 < nmc then base ++ ('_' :: mcSuffix i) ++ (".nii.gz".data)
  else base ++ (".nii.gz".data)

/-- Decimal re-parse of a digit string, inverse of the suffix encoding. -/
def parseDigits (l : List Char) : ℕ :=
  Nat.ofDigits 10 ((l.map charDigit).reverse)

/-! ## Color-label merging, from `test` in `ivadomed/testing.py`

A per-sample prediction is a list of label channels, each channel the
flattened list of its values. In the 2D path (lines 143-157) the flush
first builds the output volume with
`pred_to_nib(..., bin_thr=0.5 if binarize_prediction else -1)` and, when
the result is 4-dimensional with more than one label channel, feeds
`output_nii.get_fdata()` — the data of the volume just saved — to
`save_color_labels`. In the 3D path (lines 178-192) the condition is
`preds_idx_arr.shape[0] > 1` and the array fed to `save_color_labels` is
`preds_idx_arr` itself, the raw un-binarized prediction. Only the data
array handed to the merge is modelled; `save_color_labels` itself is an
opaque sink. -/

/-- A multi-label prediction: label channels times flattened values. -/
abbrev LabelPred := List (List ℚ)

/-- Number of label channels of a stack of per-slice predictions. -/
def nLabelOf (dataLst : List LabelPred) : ℕ :=
  (dataLst.headD []).length

/-- Channel-major stacking of per-slice predictions: channel `c` of the
volume is the concatenation over the slices of their channel `c`. -/
def stackChannels (dataLst : List LabelPred) : LabelPred :=
  (List.range (nLabelOf dataLst)).map
    (fun c => dataLst.flatMap (fun p => p.getD c []))

/-- Hard thresholding of one value at threshold `thr`. -/
def binarizeQ (thr : ℚ) (v : ℚ) : ℚ :=
  if thr ≤ v then 1 else 0

/-- Modelled from the spec: `imed_utils.pred_to_nib` is not under `src/`.
Per the spec (section 4.6), on flush the accumulated slices are stacked
along the slice axis in index order and the result is binarized at the
configured threshold only if the model is configured for hard outputs;
the call sites pass `bin_thr=0.5` when `binarize_prediction` is set and
`bin_thr=-1` (no binarization) otherwise. We model the data array of the
returned nifti volume: the channel-major stack, thresholded when a
threshold is configured. -/
def pred_to_nib_data (dataLst : List LabelPred) (binThr : Option ℚ) : LabelPred :=
  let stacked := stackChannels dataLst
  match binThr with
  | none => stacked
  | some thr => stacked.map (List.map (binarizeQ thr))

/-- The `bin_thr` argument of the call sites:
`0.5 if context["binarize_prediction"] else -1`, with `-1` meaning no
binarization. -/
def binThrOf (binarize : Bool) : Option ℚ :=
  if binarize then some (1 / 2) else none

/-- The data array handed to `save_color_labels` in the 2D path, when a
merge happens (`ivadomed/testing.py`, lines 151-157): the data of the
just-saved output volume, provided it has more than one label channel. -/
def colorMergeInput2d (buffer : List LabelPred) (binarize : Bool) :
    Option LabelPred :=
  let out := pred_to_nib_data buffer (binThrOf binarize)
  if 1 < out.length then some out else none

/-- The data array handed to `save_color_labels` in the 3D path
(`ivadomed/testing.py`, lines 186-192): the raw undone prediction
`preds_idx_arr`, provided it has more than one label channel. The
`binarize_prediction` flag is passed to `save_color_labels` but does not
change which array is handed over. -/
def colorMergeInput3d (predIdxArr : LabelPred) (binarize : Bool) :
    Option LabelPred :=
  if 1 < predIdxArr.length then some predIdxArr else none

/-! ## Helper lemmas -/

lemma dictGet_dictSet_self (d : PyDict) (k : String) (v : Option ℕ) :
    dictGet (dictSet d k v) k = some v := by
  induction d with
  | nil => simp [dictGet, dictSet]
  | cons a t ih =>
    by_cases ha : a.1 = k
    · simp [dictGet, dictSet, ha]
    · have hstep : dictSet (a :: t) k v = a :: dictSet t k v := by
        simp [dictSet, ha]
      rw [hstep]
      unfold dictGet
      rw [List.find?_cons_of_neg _ (by simp [ha])]
      exact ih

lemma dictGet_dictSet_other (d : PyDict) (k k' : String) (v : Option ℕ)
    (hk : k' ≠ k) : dictGet (dictSet d k v) k' = dictGet d k' := by
  induction d with
  | nil =>
    show dictGet [(k, v)] k' = dictGet [] k'
    unfold dictGet
    rw [List.find?_cons_of_neg _ (by simp [Ne.symm hk])]
  | cons a t ih =>
    by_cases ha : a.1 = k
    · have hstep : dictSet (a :: t) k v = (k, v) :: t := by
        simp [dictSet, ha]
      rw [hstep]
      unfold dictGet
      rw [List.find?_cons_of_neg _ (by simp [Ne.symm hk]),
        List.find?_cons_of_neg _ (by simp [ha, Ne.symm hk])]
    · have hstep : dictSet (a :: t) k v = a :: dictSet t k v := by
        simp [dictSet, ha]
      rw [hstep]
      by_cases ha' : a.1 = k'
      · unfold dictGet
        rw [List.find?_cons_of_pos _ (by simp [ha']),
          List.find?_cons_of_pos _ (by simp [ha'])]
      · unfold dictGet
        rw [List.find?_cons_of_neg _ (by simp [ha']),
          List.find?_cons_of_neg _ (by simp [ha'])]
        exact ih

lemma ofDigits_replicate_zero (b k : ℕ) :
    Nat.ofDigits b (List.replicate k 0) = 0 := by
  induction k with
  | zero => simp
  | succ n ih => simp [List.replicate_succ, Nat.ofDigits_cons, ih]

lemma charDigit_digitChar {d : ℕ} (hd : d < 10) : charDigit (digitChar d) = d := by
  interval_cases d <;> decide

lemma parseDigits_pyNatStr (i : ℕ) : parseDigits (pyNatStr i) = i := by
  by_cases h0 : i = 0
  · subst h0; decide
  · unfold parseDigits pyNatStr
    rw [if_neg h0, List.map_reverse, List.reverse_reverse, List.map_map]
    have hmap : (Nat.digits 10 i).map (charDigit ∘ digitChar)
        = (Nat.digits 10 i).map id :=
      List.map_congr_left (fun d hd =>
        charDigit_digitChar (Nat.digits_lt_base (by norm_num) hd))
    rw [hmap, List.map_id, Nat.ofDigits_digits]

lemma parseDigits_mcSuffix (i : ℕ) : parseDigits (mcSuffix i) = i := by
  unfold mcSuffix zfill2 parseDigits
  rw [List.map_append, List.map_replicate, List.reverse_append,
    List.reverse_replicate]
  have hzero : charDigit '0' = 0 := by decide
  rw [hzero, Nat.ofDigits_append, ofDigits_replicate_zero, Nat.mul_zero,
    Nat.add_zero]
  exact parseDigits_pyNatStr i

lemma mcSuffix_injective : Function.Injective mcSuffix := by
  intro i j h
  have hp := congrArg parseDigits h
  rwa [parseDigits_mcSuffix, parseDigits_mcSuffix] at hp

lemma fnameMC_injective (base : List Char) (nmc : ℕ) (hn : 1 < nmc)
    {i j : ℕ} (hij : i ≠ j) : fnameMC base nmc i ≠ fnameMC base nmc j := by
  unfold fnameMC
  rw [if_pos hn, if_pos hn]
  intro h
  apply hij
  have h1 := List.append_cancel_right h
  have h2 := List.append_cancel_left h1
  have h3 : mcSuffix i = mcSuffix j := by
    injection h2
  exact mcSuffix_injective h3

lemma reconFlush_saved_nonempty (isLast : Bool) (s : ReconState) (t : Triple)
    (hs : ∀ v ∈ s.saved, v.preds ≠ []) :
    ∀ v ∈ (reconFlush isLast s t).saved, v.preds ≠ [] := by
  intro v hv
  unfold reconFlush at hv
  split at hv
  case isTrue h =>
    simp only [List.mem_append, List.mem_singleton] at hv
    rcases hv with hv | hv
    · exact hs v hv
    · subst hv
      exact h.1
  case isFalse h => exact hs v hv

lemma reconFoldl_saved_nonempty (l : List (ℕ × Triple)) (n : ℕ) (s : ReconState)
    (hs : ∀ v ∈ s.saved, v.preds ≠ []) :
    ∀ v ∈ (l.foldl (fun s p => reconStep (p.1 == n) s p.2) s).saved,
      v.preds ≠ [] := by
  induction l generalizing s with
  | nil => exact hs
  | cons a t ih =>
    intro v hv
    refine ih (reconStep (a.1 == n) s a.2) ?_ v hv
    intro w hw
    exact reconFlush_saved_nonempty (a.1 == n) s a.2 hs w hw

/-! ## Claims -/

/-- C1: evaluating the 2D reconstruction loop on the spec scenario stream
(keys A, A, B with slice indices 0, 1, 0, then stream end) shows that
only ONE volume is saved, namely A with its two slices; the volume B is
never saved. The forced end-of-stream flush fires while processing the
final triple but BEFORE that triple is appended, and nothing flushes the
buffer after the loop, so the final sample (here the whole volume B)
stays in the buffer and is silently dropped. The claim (and the code
comment calling the flushed file completely processed) expects two saved
volumes. -/
theorem c1_last_volume_never_saved :
    (reconRun c1Stream).saved = [⟨"A", [10, 11], [0, 1]⟩]
    ∧ ((reconRun c1Stream).saved.map SavedVolume.fname) = ["A"]
    ∧ (reconRun c1Stream).buf = [20]
    ∧ (reconRun c1Stream).zbuf = [0]
    ∧ (reconRun c1Stream).fnameTmp = "B" := by
  decide

/-- C2: on a 2-channel sample whose channels are both constant and
nonzero (value 1), `dropout_input` zeroes BOTH channels, whatever the
random draws are: both channels are in `idx_empty`, and for every
possible value of `n_dropped` (`random.randint(0, 1)` gives 0 or 1, and
neither exceeds `len(idx_empty) = 2`) the branch `idx_dropped =
idx_empty` is taken. Afterwards 0 channels are nonzero and the number of
zeroed channels is 2 = C, contradicting the claim (and the docstring of the function
itself, which promises that at least one input channel is kept). -/
theorem c2_constant_input_loses_all_channels :
    ∀ draws : List ℕ,
      dropout_input [[1], [1]] 0 draws = [[0], [0]]
      ∧ dropout_input [[1], [1]] 1 draws = [[0], [0]]
      ∧ countZeroChannels (dropout_input [[1], [1]] 1 draws) = 2 := by
  intro draws
  exact ⟨rfl, rfl, rfl⟩

/-- C3 counterexample: with the drawn drop count 3 on the 4-channel
scenario sample (channel 2 already all-zero), the drawing loop may
collect the same channel twice (the source only rejects draws that are
in `idx_empty`, not draws already collected); with the draw sequence
[1, 1] the output has exactly 2 zero channels, not 3 as claimed. -/
theorem c3_duplicate_draw_counterexample :
    dropout_input c3Input 3 [1, 1] = [[0, 1], [0, 0], [0, 0], [0, 3]]
    ∧ countZeroChannels (dropout_input c3Input 3 [1, 1]) = 2
    ∧ countZeroChannels (dropout_input c3Input 3 [1, 1]) ≠ 3 := by
  decide

/-- C3 (amended): on the 4-channel scenario sample with drawn drop count
3, for every draw stream that makes the drawing loop terminate (it
collects 2 indices) and whose draws are valid channel indices, the
output has 2 or 3 zero channels (3 exactly when the two collected draws
are distinct), channel 2 is always among the zero channels, and there
are never exactly 4 zero channels. -/
theorem c3_amended_drop_count_three (draws : List ℕ)
    (hlen : (collectDraws [2] 2 draws).length = 2)
    (hval : ∀ d ∈ draws, d < 4) :
    chAllZero ((dropout_input c3Input 3 draws).getD 2 []) = true
    ∧ (countZeroChannels (dropout_input c3Input 3 draws) = 2
       ∨ countZeroChannels (dropout_input c3Input 3 draws) = 3)
    ∧ countZeroChannels (dropout_input c3Input 3 draws) ≠ 4 := by
  have hie : idxEmpty c3Input = [2] := by decide
  have hrw : dropout_input c3Input 3 draws
      = dropChannels c3Input (collectDraws [2] 2 draws) := by
    unfold dropout_input
    rw [hie, if_pos (by decide : 1 < c3Input.length)]
    norm_num
  have hmem : ∀ x ∈ collectDraws [2] 2 draws, x ∈ draws ∧ x ≠ 2 := by
    intro x hx
    have hx' := List.take_subset _ _ hx
    have hx'' := List.mem_filter.mp hx'
    refine ⟨hx''.1, ?_⟩
    simpa using hx''.2
  obtain ⟨a, b, hab⟩ := List.length_eq_two.mp hlen
  have hma := hmem a (by rw [hab]; simp)
  have hmb := hmem b (by rw [hab]; simp)
  have ha4 := hval a hma.1
  have hb4 := hval b hmb.1
  have hacase : a = 0 ∨ a = 1 ∨ a = 3 := by
    have := hma.2
    omega
  have hbcase : b = 0 ∨ b = 1 ∨ b = 3 := by
    have := hmb.2
    omega
  rw [hrw, hab]
  rcases hacase with rfl | rfl | rfl <;> rcases hbcase with rfl | rfl | rfl <;>
    decide

/-- C3 witness: the amended theorem applied to the concrete draw stream
[0, 1], for which the loop collects two distinct channels. -/
theorem c3_amended_witness :
    (collectDraws [2] 2 [0, 1]).length = 2
    ∧ (chAllZero ((dropout_input c3Input 3 [0, 1]).getD 2 []) = true
       ∧ (countZeroChannels (dropout_input c3Input 3 [0, 1]) = 2
          ∨ countZeroChannels (dropout_input c3Input 3 [0, 1]) = 3)
       ∧ countZeroChannels (dropout_input c3Input 3 [0, 1]) ≠ 4) :=
  ⟨by decide, c3_amended_drop_count_three [0, 1] (by decide) (by decide)⟩

/-- C4 counterexample: in the 2D path with `binarize_prediction` enabled,
the array handed to the color merge is the binarized output of
`pred_to_nib`, not the raw channel stack: for a single two-channel slice
with raw values 7/10 and 2/10 the merge input is [[1], [0]], which
differs from the raw stack [[7/10], [2/10]]. -/
theorem c4_merge_input_binarized_counterexample :
    colorMergeInput2d [[[7/10], [2/10]]] true = some [[1], [0]]
    ∧ stackChannels [[[7/10], [2/10]]] = [[7/10], [2/10]]
    ∧ colorMergeInput2d [[[7/10], [2/10]]] true
        ≠ some (stackChannels [[[7/10], [2/10]]]) := by
  have h1 : colorMergeInput2d [[[7/10], [2/10]]] true = some [[1], [0]] := by
    norm_num [colorMergeInput2d, pred_to_nib_data, binThrOf, stackChannels,
      nLabelOf, List.range_succ, binarizeQ]
  have h2 : stackChannels [[[7/10], [2/10]]] = [[7/10], [2/10]] := by
    norm_num [stackChannels, nLabelOf, List.range_succ]
  refine ⟨h1, h2, ?_⟩
  rw [h1, h2]
  norm_num

/-- C4 (amended): in both paths a merge happens exactly when the
prediction has more than one label channel; the 3D path hands the raw
prediction array to the merge regardless of the binarization flag, while
the 2D path hands over the data of the just-saved volume: the raw
channel stack when binarization is disabled, the thresholded stack when
it is enabled. -/
theorem c4_amended_merge_inputs (buffer : List LabelPred)
    (predIdxArr : LabelPred) (b : Bool) :
    colorMergeInput3d predIdxArr b
      = (if 1 < predIdxArr.length then some predIdxArr else none)
    ∧ colorMergeInput2d buffer false
      = (if 1 < (stackChannels buffer).length
         then some (stackChannels buffer) else none)
    ∧ colorMergeInput2d buffer true
      = (if 1 < (stackChannels buffer).length
         then some ((stackChannels buffer).map (List.map (binarizeQ (1/2))))
         else none) := by
  refine ⟨rfl, rfl, ?_⟩
  unfold colorMergeInput2d pred_to_nib_data binThrOf
  simp

/-- C5: the number of inference passes is the configured Monte-Carlo
count when the count is positive and epistemic or aleatoric estimation
is enabled, and 1 otherwise; when more than one pass runs, distinct
passes are saved under distinct suffixed filenames, and the
uncertainty-map computation runs after the loop. -/
theorem c5_monte_carlo_passes (u : UncertaintyParams) (base : List Char)
    (i j : ℕ) (hij : i ≠ j) :
    ((u.epistemic = true ∨ u.aleatoric = true) ∧ 0 < u.nIt →
      nMonteCarlo u = u.nIt)
    ∧ (¬((u.epistemic = true ∨ u.aleatoric = true) ∧ 0 < u.nIt) →
        nMonteCarlo u = 1)
    ∧ (1 < nMonteCarlo u →
        fnameMC base (nMonteCarlo u) i ≠ fnameMC base (nMonteCarlo u) j)
    ∧ (1 < nMonteCarlo u → runUncertaintyAfter u = true) := by
  have hiff : mcEnabled u = true
      ↔ (u.epistemic = true ∨ u.aleatoric = true) ∧ 0 < u.nIt := by
    simp [mcEnabled]
  refine ⟨?_, ?_, ?_, ?_⟩
  · intro h
    unfold nMonteCarlo
    rw [if_pos (hiff.mpr h)]
  · intro h
    unfold nMonteCarlo
    rw [if_neg (fun hc => h (hiff.mp hc))]
  · intro h1
    exact fnameMC_injective base _ h1 hij
  · intro h1
    unfold runUncertaintyAfter
    by_contra hne
    have hone : nMonteCarlo u = 1 := by
      unfold nMonteCarlo
      rw [if_neg hne]
    omega

/-- C5 witness: three epistemic passes; passes 0 and 1 get distinct
filenames and the uncertainty computation is triggered. -/
theorem c5_monte_carlo_passes_witness :
    nMonteCarlo ⟨true, false, 3⟩ = 3
    ∧ fnameMC ("sub-01_T2w_pred".data) (nMonteCarlo ⟨true, false, 3⟩) 0
        ≠ fnameMC ("sub-01_T2w_pred".data) (nMonteCarlo ⟨true, false, 3⟩) 1
    ∧ runUncertaintyAfter ⟨true, false, 3⟩ = true := by
  have h := c5_monte_carlo_passes ⟨true, false, 3⟩ ("sub-01_T2w_pred".data) 0 1
    (by decide)
  exact ⟨h.1 (by exact ⟨Or.inl rfl, by decide⟩), h.2.2.1 (by decide),
    h.2.2.2 (by decide)⟩

/-- C6 counterexample: a model declaring both missing-modality tolerance
(name `HeMISUnet`) and volumetric capability (explicit `is_2d: False`)
is dispatched to the 3D dataset, not to the missing-modality HDF5
dataset, because the volumetric guard is checked first. -/
theorem c6_hemis_volumetric_counterexample :
    (load_dataset ["ROICrop"] "HeMISUnet" (some false) []).choice
        = DatasetChoice.bids3d
    ∧ (load_dataset ["ROICrop"] "HeMISUnet" (some false) []).choice
        ≠ DatasetChoice.hdf5 := by
  decide

/-- C6 (amended): the Dataset Builder constructs exactly one dataset: the
3D sub-volume dataset exactly when the model declares volumetric
capability, the missing-modality HDF5 dataset exactly when it declares
missing-modality tolerance (name `HeMISUnet`) and not volumetric
capability (the volumetric check takes priority), and the plain 2D slice
dataset exactly otherwise. -/
theorem c6_amended_dispatch (transformKeys : List String) (modelName : String)
    (is2d : Option Bool) (roiParams : PyDict) :
    ((load_dataset transformKeys modelName is2d roiParams).choice
        = DatasetChoice.bids3d ↔ volumetricCond modelName is2d = true)
    ∧ ((load_dataset transformKeys modelName is2d roiParams).choice
        = DatasetChoice.hdf5
      ↔ volumetricCond modelName is2d = false ∧ modelName = "HeMISUnet")
    ∧ ((load_dataset transformKeys modelName is2d roiParams).choice
        = DatasetChoice.bids2d
      ↔ volumetricCond modelName is2d = false ∧ modelName ≠ "HeMISUnet") := by
  show (loadChoice modelName is2d = DatasetChoice.bids3d ↔ _)
    ∧ (loadChoice modelName is2d = DatasetChoice.hdf5 ↔ _)
    ∧ (loadChoice modelName is2d = DatasetChoice.bids2d ↔ _)
  cases hv : volumetricCond modelName is2d <;>
    by_cases hm : modelName = "HeMISUnet"
  · subst hm
    simp [loadChoice, hv]
  · simp [loadChoice, hv, hm]
  · subst hm
    simp [loadChoice, hv]
  · simp [loadChoice, hv, hm]

/-- C7: whenever the ROI-cropping transform is absent from the requested
transforms, the `roi_params` dict handed to the dataset constructor has
its `slice_filter_roi` entry forced to `None`. -/
theorem c7_roi_filter_disabled (transformKeys : List String)
    (modelName : String) (is2d : Option Bool) (roiParams : PyDict)
    (h : "ROICrop" ∉ transformKeys) :
    dictGet (load_dataset transformKeys modelName is2d
        roiParams).datasetRoiParams "slice_filter_roi" = some none := by
  show dictGet (loadRoi transformKeys roiParams) "slice_filter_roi" = some none
  unfold loadRoi
  rw [if_neg h]
  exact dictGet_dictSet_self roiParams "slice_filter_roi" none

/-- C7 witness: a concrete call without `ROICrop` among the transforms. -/
theorem c7_roi_filter_disabled_witness :
    "ROICrop" ∉ ["Resample", "RandomAffine"]
    ∧ dictGet (load_dataset ["Resample", "RandomAffine"] "Unet" none
        [("suffix", some 3), ("slice_filter_roi", some 10)]).datasetRoiParams
        "slice_filter_roi" = some none :=
  ⟨by decide, c7_roi_filter_disabled ["Resample", "RandomAffine"] "Unet" none
    [("suffix", some 3), ("slice_filter_roi", some 10)] (by decide)⟩

/-- C8 counterexample: for a model name outside the supported set, with
no `is_2d` key, `load_dataset` raises no configuration error; it falls
through to the default branch and constructs the plain 2D dataset. -/
theorem c8_unknown_model_builds_default :
    (load_dataset [] "TotallyUnknownNet" none []).choice
      = DatasetChoice.bids2d := by
  decide

/-- C8 (amended): the Dataset Builder has no fail-fast error path: any
model-parameter combination that declares neither volumetric capability
nor the missing-modality name falls through to the default branch and
constructs the plain 2D slice dataset. -/
theorem c8_amended_no_error_path (transformKeys : List String)
    (modelName : String) (is2d : Option Bool) (roiParams : PyDict)
    (hv : volumetricCond modelName is2d = false)
    (hm : modelName ≠ "HeMISUnet") :
    (load_dataset transformKeys modelName is2d roiParams).choice
      = DatasetChoice.bids2d := by
  show loadChoice modelName is2d = DatasetChoice.bids2d
  unfold loadChoice
  rw [hv]
  simp [hm]

/-- C8 witness: the amended theorem at a concrete unknown model name. -/
theorem c8_amended_no_error_path_witness :
    volumetricCond "FiLMedUnet" none = false
    ∧ (load_dataset ["ROICrop"] "FiLMedUnet" none
        [("slice_filter_roi", some 10)]).choice = DatasetChoice.bids2d :=
  ⟨by decide, c8_amended_no_error_path ["ROICrop"] "FiLMedUnet" none
    [("slice_filter_roi", some 10)] (by decide) (by decide)⟩

/-- C9: when `ROICrop` is absent from the transform parameters,
`load_dataset` sets the key `slice_filter_roi` of the
`roi_params` dict object of the caller to `None` (the post-call state of that object
is the dict with exactly that binding updated), and every other entry is
left unchanged. -/
theorem c9_roi_params_mutated_in_place (transformKeys : List String)
    (modelName : String) (is2d : Option Bool) (roiParams : PyDict)
    (h : "ROICrop" ∉ transformKeys) :
    (load_dataset transformKeys modelName is2d roiParams).roiParamsAfter
        = dictSet roiParams "slice_filter_roi" none
    ∧ dictGet (load_dataset transformKeys modelName is2d
        roiParams).roiParamsAfter "slice_filter_roi" = some none
    ∧ ∀ k, k ≠ "slice_filter_roi" →
        dictGet (load_dataset transformKeys modelName is2d
          roiParams).roiParamsAfter k = dictGet roiParams k := by
  have h1 : (load_dataset transformKeys modelName is2d
      roiParams).roiParamsAfter = dictSet roiParams "slice_filter_roi" none := by
    show loadRoi transformKeys roiParams = _
    unfold loadRoi
    rw [if_neg h]
  refine ⟨h1, ?_, ?_⟩
  · rw [h1]
    exact dictGet_dictSet_self roiParams "slice_filter_roi" none
  · intro k hk
    rw [h1]
    exact dictGet_dictSet_other roiParams "slice_filter_roi" k none hk

/-- C9 witness: a concrete dict whose `slice_filter_roi` entry becomes
`None` while its `suffix` entry keeps its value. -/
theorem c9_roi_params_mutated_in_place_witness :
    (load_dataset ["CenterCrop"] "Unet" none
        [("suffix", some 3), ("slice_filter_roi", some 10)]).roiParamsAfter
      = [("suffix", some 3), ("slice_filter_roi", none)]
    ∧ dictGet (load_dataset ["CenterCrop"] "Unet" none
        [("suffix", some 3), ("slice_filter_roi", some 10)]).roiParamsAfter
        "suffix" = some (some 3) := by
  have h := c9_roi_params_mutated_in_place ["CenterCrop"] "Unet" none
    [("suffix", some 3), ("slice_filter_roi", some 10)] (by decide)
  refine ⟨?_, ?_⟩
  · rw [h.1]
    decide
  · rw [h.2.2 "suffix" (by decide)]
    decide

/-- C10: a volume is written only from a non-empty accumulation buffer
(every saved volume carries at least one slice), the first incoming
sample of a stream never triggers a flush (the state after the first
step has saved nothing), and when the flush branch fires the two buffers
are reset and then hold exactly the just-appended current sample. -/
theorem c10_flush_guard_and_reset (stream : List Triple) (isLast : Bool)
    (s : ReconState) (t : Triple) :
    (∀ v ∈ (reconRun stream).saved, v.preds ≠ [])
    ∧ (reconStep isLast reconInit t).saved = []
    ∧ (s.buf ≠ [] ∧ (t.fname ≠ s.fnameTmp ∨ isLast = true) →
        (reconStep isLast s t).buf = [t.pred]
        ∧ (reconStep isLast s t).zbuf = [t.z]) := by
  refine ⟨?_, ?_, ?_⟩
  · have hinit : ∀ v ∈ reconInit.saved, v.preds ≠ [] := by
      intro v hv
      simp [reconInit] at hv
    exact reconFoldl_saved_nonempty (stream.enum) (stream.length - 1)
      reconInit hinit
  · simp [reconStep, reconAppend, reconFlush, reconInit]
  · intro hc
    simp only [reconStep, reconAppend, reconFlush]
    rw [if_pos hc]
    exact ⟨rfl, rfl⟩

/-- C10 witness: on a two-sample stream every saved volume is non-empty;
a first sample flushes nothing; and a concrete flushing step leaves the
buffers holding exactly the current sample. -/
theorem c10_flush_guard_and_reset_witness :
    ((⟨[5], [0], "A", []⟩ : ReconState).buf ≠ []
      ∧ ("B" ≠ "A" ∨ (true : Bool) = true))
    ∧ (reconStep true reconInit ⟨1, 0, "A"⟩).saved = []
    ∧ (reconStep true ⟨[5], [0], "A", []⟩ ⟨6, 1, "B"⟩).buf = [6]
    ∧ (reconStep true ⟨[5], [0], "A", []⟩ ⟨6, 1, "B"⟩).zbuf = [1] := by
  have h := c10_flush_guard_and_reset [⟨1, 0, "A"⟩, ⟨2, 0, "B"⟩] true
    ⟨[5], [0], "A", []⟩ ⟨6, 1, "B"⟩
  have hc : (⟨[5], [0], "A", []⟩ : ReconState).buf ≠ []
      ∧ ("B" ≠ "A" ∨ (true : Bool) = true) := by decide
  exact ⟨hc, h.2.1, (h.2.2 hc).1, (h.2.2 hc).2⟩

end Ivadomed

